import Mathlib

/-!
Verification of the bubble_grader decision engine and calibration grid.

This development shallowly embeds the core of `bubble_grader.py`:

* the darkness model (`darkness`),
* the statistical choice decision engine (`grade_5choice`, `get_form_num`,
  `uniqueid_char`), operating on the list of darkness samples that the
  Python functions obtain from `read_bubble`,
* the grid construction of `calibrate` (`bubbleDist`, `xGrid`, `calibrate`),
* the region sampler and the annotation pass (`readBubble`, `applyDraw`),
* the identifier emission of `read_scan` (`emit_identifier`).

Numeric conventions of the embedding:

* Darkness samples are exact rationals.  The Python code computes with
  IEEE doubles; the claims under study concern the exact-arithmetic
  behaviour of the formulas, except for division by a zero standard
  deviation, where the float semantics (`x/0.0 = inf` for `x > 0`,
  `0.0/0.0 = nan`, and `inf < t`, `nan < t` both false for finite `t`)
  is modelled explicitly: the rejection test `num_std < TOLERANCE`
  is false whenever the variance of the rest is zero.
* The comparison `num_std < TOLERANCE` with
  `num_std = (max - mean_rest) / sqrt(var_rest)` is expressed over ℚ in
  the equivalent squared form `max - mean_rest < 0 ∨
  (max - mean_rest)^2 < TOLERANCE^2 * var_rest` (for `var_rest ≠ 0`);
  the bridge lemma `le_div_sqrt_iff` proves the equivalence with the
  literal real-valued quotient used in the specification statements.
-/

set_option maxRecDepth 20000

/-- Number of calibration bars along left edge of form (`NUM_CALIB_BARS`). -/
def NUM_CALIB_BARS : ℕ := 63

/-- Darkness above which a bubble counts as filled (`FILLED_THRESHOLD`). -/
def FILLED_THRESHOLD : ℚ := 27/100

/-- Filled threshold used by the unique-id reader (`FILLED_THRESHOLD_UNIQUEID`). -/
def FILLED_THRESHOLD_UNIQUEID : ℚ := 27/100

/-- Darkness below which the handwritten unique-id box counts as empty
(`UNIQUEID_WRITING_THRESHOLD`). -/
def UNIQUEID_WRITING_THRESHOLD : ℚ := 1/100

/-- Number of standard deviations required between the darkest bubble and the
mean of the remaining bubbles (`TOLERANCE`). -/
def TOLERANCE : ℚ := 3

/-- Tolerance used for unique-id characters (`UNIQUEID_TOLERANCE`). -/
def UNIQUEID_TOLERANCE : ℚ := 1

/-! ## List statistics

`numpy.mean` and `numpy.std` (population standard deviation, `ddof = 0`)
applied to lists of darkness samples, plus Python's `sorted`, `max` and
`list.index`. -/

/-- Arithmetic mean of a list of rationals (`numpy.mean`).  The empty list
gives `0/0 = 0`; the source never takes the mean of an empty list. -/
def listMean (l : List ℚ) : ℚ := l.sum / l.length

/-- Population variance of a list of rationals (the square of `numpy.std`
with its default `ddof = 0`). -/
def listVar (l : List ℚ) : ℚ := (l.map (fun x => (x - listMean l)^2)).sum / l.length

/-- Python's `sorted` (ascending) on darkness samples. -/
def sortedSamples (s : List ℚ) : List ℚ := s.insertionSort (· ≤ ·)

/-- Last element of a list with a default: Python's `l[-1]` (the default is
never used at the call sites, which all have nonempty lists). -/
def lastD {α : Type} : List α → α → α
  | [], d => d
  | [a], _ => a
  | _ :: b :: t, d => lastD (b :: t) d

/-- First element of a list with a default: Python's `l[0]`. -/
def firstD {α : Type} : List α → α → α
  | [], d => d
  | a :: _, _ => a

/-- Python's `max` on a list of samples (`max(bubble_intensities)`);
`0` for the empty list, which the source never passes. -/
def pyMax : List ℚ → ℚ
  | [] => 0
  | a :: t => t.foldl max a

/-- Python's `list.index`: index of the first occurrence of `p` in the list
(length of the list if absent; the call sites always pass a member). -/
def listIdx (p : ℚ) : List ℚ → ℕ
  | [] => 0
  | a :: t => if a = p then 0 else listIdx p t + 1

/-- The choice computed by the decision engine:
`bubble_intensities.index(max(bubble_intensities))`. -/
def idxOfMax (s : List ℚ) : ℕ := listIdx (pyMax s) s

/-- All samples but the darkest: `bub_sort[:-1]` for `bub_sort = sorted(s)`. -/
def restOf (s : List ℚ) : List ℚ := (sortedSamples s).dropLast

/-- The darkest sample: `bub_sort[-1]`. -/
def maxSample (s : List ℚ) : ℚ := lastD (sortedSamples s) 0

/-- The second darkest sample: `bub_sort[-2]`, i.e. the last element of
`bub_sort[:-1]`. -/
def secondSample (s : List ℚ) : ℚ := lastD (restOf s) 0

/-! ## Choice decision engine

Each Python decision function reads its bubble intensities with
`read_bubble` and then decides from that list alone.  The embeddings below
take the sample list directly; `none` models the no-selection sentinel
(`"."` for graded questions and the form number, `" "` for an identifier
character).

The test `num_std < TOLERANCE` with
`num_std = (bub_sort[-1] - mean(bub_sort[:-1])) / std(bub_sort[:-1])`
is written in the squared form explained in the header; when
`std(bub_sort[:-1]) = 0` the float division yields `inf` or `nan` and the
comparison is false, hence the conjunct `listVar (restOf s) ≠ 0`. -/

/-- Decision core of `grade_5choice` (bubble_grader.py lines 420-434), as a
function of the five sampled darkness values.  `some i` models returning
the 0-based choice `i`; `none` models returning `"."`. -/
def grade_5choice (s : List ℚ) : Option ℕ :=
  if (listVar (restOf s) ≠ 0 ∧
        (maxSample s - listMean (restOf s) < 0 ∨
         (maxSample s - listMean (restOf s))^2 < TOLERANCE^2 * listVar (restOf s)))
      ∨ maxSample s < FILLED_THRESHOLD then
    none
  else
    some (idxOfMax s)

/-- Decision core of `get_form_num` (bubble_grader.py lines 441-452), as a
function of the four sampled darkness values.  The separation is
`(bub_sort[-1] - bub_sort[-2]) / std(bub_sort[:-1])` and there is no
absolute darkness floor; on success the code returns `choice % 2 + 1`. -/
def get_form_num (s : List ℚ) : Option ℕ :=
  if listVar (restOf s) ≠ 0 ∧
      (maxSample s - secondSample s < 0 ∨
       (maxSample s - secondSample s)^2 < TOLERANCE^2 * listVar (restOf s)) then
    none
  else
    some (idxOfMax s % 2 + 1)

/-- Decision core for one unique-id character (bubble_grader.py lines
388-410): `s` is the list of 36 bubble intensities for the character and
`probe` is the darkness read above the row (`y_grid[UNIQUEID_Y-1]`).
Returns `' '` for blank, else the decoded letter or digit
(`chr(choice - 26 + ord("0"))` or `chr(choice + ord("A"))`). -/
def uniqueid_char (s : List ℚ) (probe : ℚ) : Char :=
  if (listVar (restOf s) ≠ 0 ∧
        (maxSample s - listMean (restOf s) < 0 ∨
         (maxSample s - listMean (restOf s))^2 < UNIQUEID_TOLERANCE^2 * listVar (restOf s)))
      ∨ (probe < UNIQUEID_WRITING_THRESHOLD ∧ maxSample s < FILLED_THRESHOLD_UNIQUEID) then
    ' '
  else if 25 < idxOfMax s then
    Char.ofNat (idxOfMax s - 26 + 48)
  else
    Char.ofNat (idxOfMax s + 65)

/-- The separation statistic of the specification for a graded question:
`(max - mean_of_rest) / stddev_of_rest`, as a real number. -/
noncomputable def separation (s : List ℚ) : ℝ :=
  ((maxSample s - listMean (restOf s) : ℚ) : ℝ) / Real.sqrt ((listVar (restOf s) : ℚ) : ℝ)

/-- The separation statistic of the form-number decision:
`(max - second_highest) / stddev_of_rest`, as a real number. -/
noncomputable def separation_form (s : List ℚ) : ℝ :=
  ((maxSample s - secondSample s : ℚ) : ℝ) / Real.sqrt ((listVar (restOf s) : ℚ) : ℝ)

/-! ## Basic facts about the list statistics -/

theorem lastD_mem : ∀ (l : List ℚ) (d : ℚ), l ≠ [] → lastD l d ∈ l
  | [], _, h => absurd rfl h
  | [a], d, _ => by simp [lastD]
  | a :: b :: t, d, _ => by
    rw [lastD]
    exact List.mem_cons_of_mem a (lastD_mem (b :: t) d (by simp))

theorem sorted_le_lastD : ∀ (l : List ℚ), l.Sorted (· ≤ ·) → ∀ x ∈ l, x ≤ lastD l 0
  | [], _, x, hx => absurd hx (by simp)
  | [a], _, x, hx => by
    simp only [List.mem_singleton] at hx
    simp [lastD, hx]
  | a :: b :: t, hs, x, hx => by
    rw [lastD]
    rcases List.mem_cons.1 hx with rfl | hx'
    · have hab : x ≤ b := (List.sorted_cons.1 hs).1 b (by simp)
      exact le_trans hab (sorted_le_lastD (b :: t) (List.sorted_cons.1 hs).2 b (by simp))
    · exact sorted_le_lastD (b :: t) (List.sorted_cons.1 hs).2 x hx'

theorem lastD_concat (l : List ℚ) (a d : ℚ) : lastD (l ++ [a]) d = a := by
  induction l with
  | nil => simp [lastD]
  | cons b t ih =>
    cases t with
    | nil => simp [lastD]
    | cons c u => rw [List.cons_append, List.cons_append, lastD, ← List.cons_append]; exact ih

theorem foldl_max_le_self (t : List ℚ) : ∀ b : ℚ, b ≤ t.foldl max b := by
  induction t with
  | nil => intro b; simp
  | cons c u ih =>
    intro b
    rw [List.foldl_cons]
    exact le_trans (le_max_left b c) (ih (max b c))

theorem le_foldl_max_of_mem {x : ℚ} (t : List ℚ) (hx : x ∈ t) : ∀ b : ℚ, x ≤ t.foldl max b := by
  induction t with
  | nil => cases hx
  | cons c u ih =>
    intro b
    rw [List.foldl_cons]
    rcases List.mem_cons.1 hx with rfl | hx'
    · exact le_trans (le_max_right b x) (foldl_max_le_self u (max b x))
    · exact ih hx' (max b c)

theorem foldl_max_mem (t : List ℚ) : ∀ b : ℚ, t.foldl max b = b ∨ t.foldl max b ∈ t := by
  induction t with
  | nil => intro b; left; rfl
  | cons c u ih =>
    intro b
    rw [List.foldl_cons]
    rcases ih (max b c) with h | h
    · rcases max_choice b c with hb | hc
      · left; rw [h, hb]
      · right; rw [h, hc]; simp
    · right; exact List.mem_cons_of_mem c h

theorem pyMax_mem {s : List ℚ} (h : s ≠ []) : pyMax s ∈ s := by
  cases s with
  | nil => exact absurd rfl h
  | cons a t =>
    rw [pyMax]
    rcases foldl_max_mem t a with h' | h'
    · rw [h']; simp
    · exact List.mem_cons_of_mem a h'

theorem le_pyMax {x : ℚ} {s : List ℚ} (hx : x ∈ s) : x ≤ pyMax s := by
  cases s with
  | nil => cases hx
  | cons a t =>
    rw [pyMax]
    rcases List.mem_cons.1 hx with rfl | hx'
    · exact foldl_max_le_self t x
    · exact le_foldl_max_of_mem t hx' a

theorem listIdx_lt_length {p : ℚ} {s : List ℚ} (h : p ∈ s) : listIdx p s < s.length := by
  induction s with
  | nil => cases h
  | cons a t ih =>
    rw [listIdx]
    by_cases hap : a = p
    · simp [hap]
    · rcases List.mem_cons.1 h with rfl | h'
      · exact absurd rfl hap
      · simp only [if_neg hap, List.length_cons]
        exact Nat.succ_lt_succ (ih h')

theorem getD_listIdx {p : ℚ} {s : List ℚ} (h : p ∈ s) : s.getD (listIdx p s) 0 = p := by
  induction s with
  | nil => cases h
  | cons a t ih =>
    rw [listIdx]
    by_cases hap : a = p
    · simp [hap]
    · rcases List.mem_cons.1 h with rfl | h'
      · exact absurd rfl hap
      · simp only [if_neg hap, List.getD_cons_succ]
        exact ih h'

theorem idxOfMax_lt_length {s : List ℚ} (h : s ≠ []) : idxOfMax s < s.length :=
  listIdx_lt_length (pyMax_mem h)

theorem getD_idxOfMax {s : List ℚ} (h : s ≠ []) : s.getD (idxOfMax s) 0 = pyMax s :=
  getD_listIdx (pyMax_mem h)

theorem sortedSamples_perm (s : List ℚ) : List.Perm (sortedSamples s) s :=
  List.perm_insertionSort _ s

theorem sortedSamples_sorted (s : List ℚ) : (sortedSamples s).Sorted (· ≤ ·) :=
  List.sorted_insertionSort _ s

theorem sortedSamples_length (s : List ℚ) : (sortedSamples s).length = s.length :=
  (sortedSamples_perm s).length_eq

theorem sortedSamples_ne_nil {s : List ℚ} (h : s ≠ []) : sortedSamples s ≠ [] := by
  intro hc
  exact h (List.length_eq_zero.1 (by rw [← sortedSamples_length s, hc, List.length_nil]))

theorem maxSample_mem {s : List ℚ} (h : s ≠ []) : maxSample s ∈ s :=
  (sortedSamples_perm s).mem_iff.1 (lastD_mem _ 0 (sortedSamples_ne_nil h))

theorem le_maxSample {x : ℚ} {s : List ℚ} (hx : x ∈ s) : x ≤ maxSample s :=
  sorted_le_lastD _ (sortedSamples_sorted s) x ((sortedSamples_perm s).mem_iff.2 hx)

theorem maxSample_eq_pyMax {s : List ℚ} (h : s ≠ []) : maxSample s = pyMax s :=
  le_antisymm (le_pyMax (maxSample_mem h)) (le_maxSample (pyMax_mem h))

theorem restOf_length (s : List ℚ) : (restOf s).length = s.length - 1 := by
  rw [restOf, List.length_dropLast, sortedSamples_length]

theorem mem_of_mem_restOf {x : ℚ} {s : List ℚ} (hx : x ∈ restOf s) : x ∈ sortedSamples s :=
  (List.dropLast_sublist (sortedSamples s)).subset hx

theorem restOf_le_maxSample {x : ℚ} {s : List ℚ} (hx : x ∈ restOf s) : x ≤ maxSample s :=
  sorted_le_lastD _ (sortedSamples_sorted s) x (mem_of_mem_restOf hx)

theorem restOf_ne_nil {s : List ℚ} (h2 : 2 ≤ s.length) : restOf s ≠ [] := by
  intro hc
  have := restOf_length s
  rw [hc, List.length_nil] at this
  omega

theorem secondSample_le_maxSample {s : List ℚ} (h2 : 2 ≤ s.length) :
    secondSample s ≤ maxSample s :=
  restOf_le_maxSample (lastD_mem _ 0 (restOf_ne_nil h2))

theorem listMean_le_of_forall_le {l : List ℚ} {c : ℚ} (hne : l ≠ [])
    (h : ∀ x ∈ l, x ≤ c) : listMean l ≤ c := by
  have hlen : 0 < (l.length : ℚ) := by
    have : 0 < l.length := List.length_pos.2 hne
    exact_mod_cast this
  rw [listMean, div_le_iff₀ hlen]
  have := List.sum_le_card_nsmul l c h
  rwa [nsmul_eq_mul, mul_comm] at this

theorem listVar_nonneg (l : List ℚ) : 0 ≤ listVar l := by
  rw [listVar]
  apply div_nonneg
  · apply List.sum_nonneg
    intro x hx
    rcases List.mem_map.1 hx with ⟨y, _, rfl⟩
    positivity
  · exact_mod_cast Nat.zero_le l.length

theorem maxSample_sub_mean_nonneg {s : List ℚ} (h2 : 2 ≤ s.length) :
    0 ≤ maxSample s - listMean (restOf s) := by
  have h := listMean_le_of_forall_le (restOf_ne_nil h2)
    (fun x hx => restOf_le_maxSample hx)
  linarith

/-- Bridge between the squared-form rejection test used by the (computable)
embedding and the literal quotient `d / sqrt v` of the specification. -/
theorem le_div_sqrt_iff (t d v : ℚ) (ht : 0 ≤ t) (hd : 0 ≤ d) (hv : 0 < v) :
    ((t : ℝ) ≤ (d : ℝ) / Real.sqrt (v : ℝ)) ↔ t^2 * v ≤ d^2 := by
  have hv' : (0 : ℝ) < (v : ℝ) := by exact_mod_cast hv
  have hsv : 0 < Real.sqrt (v : ℝ) := Real.sqrt_pos.2 hv'
  have ht' : (0 : ℝ) ≤ (t : ℝ) := by exact_mod_cast ht
  have hd' : (0 : ℝ) ≤ (d : ℝ) := by exact_mod_cast hd
  rw [le_div_iff₀ hsv]
  constructor
  · intro h
    have h2 : ((t : ℝ) * Real.sqrt (v : ℝ))^2 ≤ (d : ℝ)^2 :=
      pow_le_pow_left₀ (by positivity) h 2
    rw [mul_pow, Real.sq_sqrt hv'.le] at h2
    exact_mod_cast h2
  · intro h
    have h' : ((t : ℝ))^2 * (v : ℝ) ≤ ((d : ℝ))^2 := by exact_mod_cast h
    have h2 : ((t : ℝ) * Real.sqrt (v : ℝ))^2 ≤ (d : ℝ)^2 := by
      rw [mul_pow, Real.sq_sqrt hv'.le]; exact h'
    exact le_of_pow_le_pow_left₀ two_ne_zero hd' h2

/-! ## Characterization of the rejection test -/

/-- For a graded question with nonzero rest-variance, the specification's
condition `separation >= TOLERANCE` is exactly the negation of the embedded
rejection test. -/
theorem grade5_sep_iff {s : List ℚ} (h2 : 2 ≤ s.length) (hv : listVar (restOf s) ≠ 0) :
    ((TOLERANCE : ℝ) ≤ separation s) ↔
      ¬ (maxSample s - listMean (restOf s) < 0 ∨
         (maxSample s - listMean (restOf s))^2 < TOLERANCE^2 * listVar (restOf s)) := by
  have hd := maxSample_sub_mean_nonneg h2
  have hvpos : 0 < listVar (restOf s) := lt_of_le_of_ne (listVar_nonneg _) (Ne.symm hv)
  have ht : (0:ℚ) ≤ TOLERANCE := by norm_num [TOLERANCE]
  unfold separation
  rw [le_div_sqrt_iff TOLERANCE _ _ ht hd hvpos]
  constructor
  · intro h
    rw [not_or]
    exact ⟨not_lt.2 hd, not_lt.2 h⟩
  · intro h
    rw [not_or] at h
    exact not_lt.1 h.2

/-- Analogue of `grade5_sep_iff` for the form-number separation
`(max - second_highest) / stddev_of_rest`. -/
theorem form_sep_iff {s : List ℚ} (h2 : 2 ≤ s.length) (hv : listVar (restOf s) ≠ 0) :
    ((TOLERANCE : ℝ) ≤ separation_form s) ↔
      ¬ (maxSample s - secondSample s < 0 ∨
         (maxSample s - secondSample s)^2 < TOLERANCE^2 * listVar (restOf s)) := by
  have hd : 0 ≤ maxSample s - secondSample s := by
    have := secondSample_le_maxSample h2
    linarith
  have hvpos : 0 < listVar (restOf s) := lt_of_le_of_ne (listVar_nonneg _) (Ne.symm hv)
  have ht : (0:ℚ) ≤ TOLERANCE := by norm_num [TOLERANCE]
  unfold separation_form
  rw [le_div_sqrt_iff TOLERANCE _ _ ht hd hvpos]
  constructor
  · intro h
    rw [not_or]
    exact ⟨not_lt.2 hd, not_lt.2 h⟩
  · intro h
    rw [not_or] at h
    exact not_lt.1 h.2

/-- C1.  For a 5-candidate graded question whose rest-samples have nonzero
variance, `grade_5choice` returns the 0-based index of the darkest candidate
exactly when `separation >= TOLERANCE` and `max >= FILLED_THRESHOLD` both
hold, and the sentinel `"."` (here `none`) exactly otherwise.  Amendment
forced by the code: when the standard deviation of the rest is zero, the
float quotient is `inf` or `nan`, the comparison `num_std < TOLERANCE` is
false either way, and the decision reduces to the darkness floor alone
(third conjunct) — so an all-identical group at or above the floor is
selected, not rejected. -/
theorem grade_5choice_spec :
    (∀ s : List ℚ, s.length = 5 → listVar (restOf s) ≠ 0 →
      ((grade_5choice s = some (idxOfMax s) ∧ idxOfMax s < 5 ∧
          s.getD (idxOfMax s) 0 = maxSample s)
        ↔ ((TOLERANCE : ℝ) ≤ separation s ∧ FILLED_THRESHOLD ≤ maxSample s)))
    ∧ (∀ s : List ℚ, s.length = 5 → listVar (restOf s) ≠ 0 →
      (grade_5choice s = none ↔
        ¬ ((TOLERANCE : ℝ) ≤ separation s ∧ FILLED_THRESHOLD ≤ maxSample s)))
    ∧ (∀ s : List ℚ, s.length = 5 → listVar (restOf s) = 0 →
      grade_5choice s = if maxSample s < FILLED_THRESHOLD then none else some (idxOfMax s)) := by
  refine ⟨?_, ?_, ?_⟩
  · intro s h5 hv
    have h2 : 2 ≤ s.length := by omega
    have hne : s ≠ [] := by
      intro h
      rw [h] at h5
      simp at h5
    constructor
    · rintro ⟨hsome, -, -⟩
      by_cases hcond : (listVar (restOf s) ≠ 0 ∧
          (maxSample s - listMean (restOf s) < 0 ∨
           (maxSample s - listMean (restOf s))^2 < TOLERANCE^2 * listVar (restOf s)))
          ∨ maxSample s < FILLED_THRESHOLD
      · rw [grade_5choice, if_pos hcond] at hsome
        cases hsome
      · rw [not_or] at hcond
        refine ⟨(grade5_sep_iff h2 hv).2 ?_, not_lt.1 hcond.2⟩
        intro hinner
        exact hcond.1 ⟨hv, hinner⟩
    · rintro ⟨hsep, hfill⟩
      have hcond : ¬ ((listVar (restOf s) ≠ 0 ∧
          (maxSample s - listMean (restOf s) < 0 ∨
           (maxSample s - listMean (restOf s))^2 < TOLERANCE^2 * listVar (restOf s)))
          ∨ maxSample s < FILLED_THRESHOLD) := by
        rw [not_or]
        exact ⟨fun h => (grade5_sep_iff h2 hv).1 hsep h.2, not_lt.2 hfill⟩
      refine ⟨by rw [grade_5choice, if_neg hcond], ?_, ?_⟩
      · have := idxOfMax_lt_length hne
        omega
      · rw [getD_idxOfMax hne, maxSample_eq_pyMax hne]
  · intro s h5 hv
    have h2 : 2 ≤ s.length := by omega
    by_cases hcond : (listVar (restOf s) ≠ 0 ∧
        (maxSample s - listMean (restOf s) < 0 ∨
         (maxSample s - listMean (restOf s))^2 < TOLERANCE^2 * listVar (restOf s)))
        ∨ maxSample s < FILLED_THRESHOLD
    · rw [grade_5choice, if_pos hcond]
      simp only [true_iff]
      rcases hcond with ⟨-, hinner⟩ | hfill
      · intro hboth
        exact (grade5_sep_iff h2 hv).1 hboth.1 hinner
      · intro hboth
        exact absurd hboth.2 (not_le.2 hfill)
    · rw [grade_5choice, if_neg hcond]
      rw [not_or] at hcond
      simp only [reduceCtorEq, false_iff, not_not]
      refine ⟨(grade5_sep_iff h2 hv).2 ?_, not_lt.1 hcond.2⟩
      intro hinner
      exact hcond.1 ⟨hv, hinner⟩
  · intro s h5 hv0
    rw [grade_5choice]
    simp only [hv0, ne_eq, not_true_eq_false, false_and, false_or]

/-- C1 witness: a concrete 5-sample group with nonzero rest-variance,
high separation and a dark winner, on which the positive direction of
`grade_5choice_spec` is applied with every hypothesis discharged. -/
theorem grade_5choice_spec_witness :
    grade_5choice [0, 0, 1/10, 0, 9/10] = some (idxOfMax [0, 0, 1/10, 0, 9/10]) ∧
    idxOfMax [0, 0, 1/10, 0, 9/10] < 5 ∧
    [0, 0, 1/10, 0, 9/10].getD (idxOfMax [0, 0, 1/10, 0, 9/10]) 0 =
      maxSample [0, 0, 1/10, 0, 9/10] := by
  apply (grade_5choice_spec.1 [0, 0, 1/10, 0, 9/10] (by norm_num)
    (by norm_num [listVar, listMean, restOf, sortedSamples, List.insertionSort,
      List.orderedInsert])).2
  constructor
  · have hd : maxSample [0, 0, 1/10, 0, 9/10] - listMean (restOf [0, 0, 1/10, 0, 9/10])
        = 7/8 := by
      norm_num [maxSample, listMean, restOf, sortedSamples, List.insertionSort,
        List.orderedInsert, lastD]
    have hv : listVar (restOf [0, 0, 1/10, 0, 9/10]) = 3/1600 := by
      norm_num [listVar, listMean, restOf, sortedSamples, List.insertionSort,
        List.orderedInsert]
    unfold separation
    rw [hd, hv, le_div_sqrt_iff TOLERANCE (7/8) (3/1600) (by norm_num [TOLERANCE])
      (by norm_num) (by norm_num)]
    norm_num [TOLERANCE]
  · norm_num [maxSample, restOf, sortedSamples, List.insertionSort,
      List.orderedInsert, lastD, FILLED_THRESHOLD]

/-- C1 counterexample: the all-identical group `[1/2,1/2,1/2,1/2,1/2]` has
zero rest-variance (the separation quotient is `0.0/0.0`, i.e. `nan`, so the
specification's condition `separation >= TOLERANCE` cannot hold), yet the
code selects index 0 instead of returning the sentinel, because `nan <
TOLERANCE` is false and the winner is above the darkness floor. -/
theorem grade_5choice_nan_counterexample :
    grade_5choice (List.replicate 5 (1/2)) = some 0 ∧
    listVar (restOf (List.replicate 5 (1/2))) = 0 ∧
    maxSample (List.replicate 5 (1/2)) - listMean (restOf (List.replicate 5 (1/2))) = 0 := by
  norm_num [grade_5choice, restOf, sortedSamples, List.insertionSort, List.orderedInsert,
    listVar, listMean, maxSample, lastD, idxOfMax, pyMax, listIdx, List.replicate,
    TOLERANCE, FILLED_THRESHOLD]

/-- C3 counterexample: for the samples `[0.04, 0.05, 0.06, 0.07, 0.90]` the
engine does not return index 3 — the darkest sample `0.90` sits at 0-based
index 4. -/
theorem grade_5choice_example_counterexample :
    grade_5choice [1/25, 1/20, 3/50, 7/100, 9/10] ≠ some 3 := by
  norm_num [grade_5choice, restOf, sortedSamples, List.insertionSort, List.orderedInsert,
    listVar, listMean, maxSample, lastD, idxOfMax, pyMax, listIdx,
    TOLERANCE, FILLED_THRESHOLD]

/-- C3 amended: on `[0.04, 0.05, 0.06, 0.07, 0.90]` the engine returns index
4 (the 0-based index of the `0.90` sample; separation far exceeds the
tolerance and the winner exceeds the filled floor), and on
`[0.10, 0.12, 0.11, 0.13, 0.10]` (low separation) it returns the
no-selection sentinel. -/
theorem grade_5choice_examples :
    grade_5choice [1/25, 1/20, 3/50, 7/100, 9/10] = some 4 ∧
    grade_5choice [1/10, 3/25, 11/100, 13/100, 1/10] = none := by
  constructor <;>
    norm_num [grade_5choice, restOf, sortedSamples, List.insertionSort, List.orderedInsert,
      listVar, listMean, maxSample, lastD, idxOfMax, pyMax, listIdx,
      TOLERANCE, FILLED_THRESHOLD]

/-- C6 (amended).  The form-number decision computes its separation as
`(max - second_highest) / stddev_of_rest` and, unlike the graded-question
path, applies no absolute darkness floor: for nonzero rest-variance it
selects exactly when `separation >= TOLERANCE`, returning the variant
`choice % 2 + 1` (always 1 or 2), and returns the sentinel exactly when
`separation < TOLERANCE`.  A zero rest-variance always selects. -/
theorem get_form_num_spec :
    (∀ s : List ℚ, s.length = 4 → listVar (restOf s) ≠ 0 →
      (get_form_num s = some (idxOfMax s % 2 + 1) ↔ (TOLERANCE : ℝ) ≤ separation_form s))
    ∧ (∀ s : List ℚ, s.length = 4 → listVar (restOf s) ≠ 0 →
      (get_form_num s = none ↔ separation_form s < (TOLERANCE : ℝ)))
    ∧ (∀ s : List ℚ, listVar (restOf s) = 0 → get_form_num s = some (idxOfMax s % 2 + 1))
    ∧ (∀ (s : List ℚ) (r : ℕ), get_form_num s = some r → r = 1 ∨ r = 2) := by
  refine ⟨?_, ?_, ?_, ?_⟩
  · intro s h4 hv
    have h2 : 2 ≤ s.length := by omega
    by_cases hcond : listVar (restOf s) ≠ 0 ∧
        (maxSample s - secondSample s < 0 ∨
         (maxSample s - secondSample s)^2 < TOLERANCE^2 * listVar (restOf s))
    · rw [get_form_num, if_pos hcond]
      simp only [reduceCtorEq, false_iff]
      intro hsep
      exact (form_sep_iff h2 hv).1 hsep hcond.2
    · rw [get_form_num, if_neg hcond]
      simp only [true_iff]
      refine (form_sep_iff h2 hv).2 ?_
      intro hinner
      exact hcond ⟨hv, hinner⟩
  · intro s h4 hv
    have h2 : 2 ≤ s.length := by omega
    rw [← not_le, form_sep_iff h2 hv, not_not]
    by_cases hcond : listVar (restOf s) ≠ 0 ∧
        (maxSample s - secondSample s < 0 ∨
         (maxSample s - secondSample s)^2 < TOLERANCE^2 * listVar (restOf s))
    · rw [get_form_num, if_pos hcond]
      simp only [true_iff]
      exact hcond.2
    · rw [get_form_num, if_neg hcond]
      rw [not_and] at hcond
      simp only [reduceCtorEq, false_iff, not_not]
      exact hcond hv
  · intro s hv0
    rw [get_form_num]
    simp only [hv0, ne_eq, not_true_eq_false, false_and, if_false]
  · intro s r h
    rw [get_form_num] at h
    split at h
    · cases h
    · have hr : idxOfMax s % 2 + 1 = r := by
        have := Option.some.inj h
        omega
      have : idxOfMax s % 2 < 2 := Nat.mod_lt _ (by norm_num)
      omega

/-- C6 witness: a concrete low-separation 4-sample group on which the
sentinel direction of `get_form_num_spec` is applied with every hypothesis
discharged. -/
theorem get_form_num_spec_witness :
    get_form_num [1/10, 3/25, 11/100, 13/100] = none := by
  apply (get_form_num_spec.2.1 [1/10, 3/25, 11/100, 13/100] (by norm_num)
    (by norm_num [listVar, listMean, restOf, sortedSamples, List.insertionSort,
      List.orderedInsert])).2
  rw [← not_le, form_sep_iff (by norm_num)
    (by norm_num [listVar, listMean, restOf, sortedSamples, List.insertionSort,
      List.orderedInsert]), not_not]
  right
  norm_num [maxSample, secondSample, listVar, listMean, restOf, sortedSamples,
    List.insertionSort, List.orderedInsert, lastD, TOLERANCE]

/-- C6 counterexample: on `[0, 0.01, 0.02, 0.2]` the separation passes
(`0.18` against a tiny standard deviation) but the winner `0.2` is below
`FILLED_THRESHOLD = 0.27`; the claimed absolute-darkness floor would demand
the sentinel, yet the code selects and returns variant 2. -/
theorem get_form_num_no_floor_counterexample :
    get_form_num [0, 1/100, 1/50, 1/5] = some 2 ∧
    maxSample [0, 1/100, 1/50, 1/5] < FILLED_THRESHOLD := by
  constructor <;>
    norm_num [get_form_num, restOf, sortedSamples, List.insertionSort, List.orderedInsert,
      listVar, listMean, maxSample, secondSample, lastD, idxOfMax, pyMax, listIdx,
      TOLERANCE, FILLED_THRESHOLD]

/-- C10.  The form-number decision always returns either the sentinel or
`choice % 2 + 1`, so its successful output is always 1 or 2; the mapping
from winning candidate to variant is non-injective: winners 0 and 2 both
yield variant 1, winners 1 and 3 both yield variant 2 (witnessed on four
concrete sample lists that differ only in the position of the winner). -/
theorem get_form_num_variant_range :
    (∀ s : List ℚ, get_form_num s = none ∨ get_form_num s = some (idxOfMax s % 2 + 1))
    ∧ (∀ (s : List ℚ) (r : ℕ), get_form_num s = some r → r = 1 ∨ r = 2)
    ∧ (idxOfMax [9/10, 0, 1/100, 1/50] = 0 ∧ get_form_num [9/10, 0, 1/100, 1/50] = some 1)
    ∧ (idxOfMax [0, 9/10, 1/100, 1/50] = 1 ∧ get_form_num [0, 9/10, 1/100, 1/50] = some 2)
    ∧ (idxOfMax [0, 1/100, 9/10, 1/50] = 2 ∧ get_form_num [0, 1/100, 9/10, 1/50] = some 1)
    ∧ (idxOfMax [0, 1/100, 1/50, 9/10] = 3 ∧ get_form_num [0, 1/100, 1/50, 9/10] = some 2) := by
  refine ⟨?_, ?_, ?_, ?_, ?_, ?_⟩
  · intro s
    rw [get_form_num]
    split
    · exact Or.inl rfl
    · exact Or.inr rfl
  · intro s r h
    rw [get_form_num] at h
    split at h
    · cases h
    · have hr : idxOfMax s % 2 + 1 = r := by
        have := Option.some.inj h
        omega
      have : idxOfMax s % 2 < 2 := Nat.mod_lt _ (by norm_num)
      omega
  all_goals constructor <;>
    norm_num [get_form_num, restOf, sortedSamples, List.insertionSort, List.orderedInsert,
      listVar, listMean, maxSample, secondSample, lastD, idxOfMax, pyMax, listIdx,
      TOLERANCE]

/-- C10 witness: the range part of `get_form_num_variant_range` applied to a
concrete selecting input, with its hypothesis discharged there. -/
theorem get_form_num_variant_range_witness :
    get_form_num [9/20, 0, 1/100, 1/50] = some 1 ∧ ((1 : ℕ) = 1 ∨ (1 : ℕ) = 2) := by
  have h : get_form_num [9/20, 0, 1/100, 1/50] = some 1 := by
    norm_num [get_form_num, restOf, sortedSamples, List.insertionSort, List.orderedInsert,
      listVar, listMean, maxSample, secondSample, lastD, idxOfMax, pyMax, listIdx,
      TOLERANCE]
  exact ⟨h, get_form_num_variant_range.2.1 [9/20, 0, 1/100, 1/50] 1 h⟩

/-! ## All-identical sample groups (degenerate statistics) -/

theorem orderedInsert_replicate (n : ℕ) (a : ℚ) :
    (List.replicate n a).orderedInsert (· ≤ ·) a = List.replicate (n+1) a := by
  cases n with
  | zero => simp [List.orderedInsert]
  | succ m =>
    rw [List.replicate_succ, List.orderedInsert, if_pos le_rfl, ← List.replicate_succ,
      ← List.replicate_succ]

theorem sortedSamples_replicate (n : ℕ) (a : ℚ) :
    sortedSamples (List.replicate n a) = List.replicate n a := by
  induction n with
  | zero => rfl
  | succ m ih =>
    rw [sortedSamples, List.replicate_succ, List.insertionSort]
    have h : (List.replicate m a).insertionSort (· ≤ ·) = List.replicate m a := ih
    rw [h, orderedInsert_replicate, List.replicate_succ]

theorem restOf_replicate (n : ℕ) (a : ℚ) :
    restOf (List.replicate (n+1) a) = List.replicate n a := by
  rw [restOf, sortedSamples_replicate, List.replicate_succ', List.dropLast_concat]

theorem maxSample_replicate (n : ℕ) (a : ℚ) : maxSample (List.replicate (n+1) a) = a := by
  rw [maxSample, sortedSamples_replicate, List.replicate_succ', lastD_concat]

theorem secondSample_replicate (n : ℕ) (a : ℚ) :
    secondSample (List.replicate (n+2) a) = a := by
  have h : restOf (List.replicate (n+2) a) = List.replicate (n+1) a := restOf_replicate (n+1) a
  rw [secondSample, h, List.replicate_succ', lastD_concat]

theorem listMean_replicate (n : ℕ) (a : ℚ) (h : n ≠ 0) :
    listMean (List.replicate n a) = a := by
  rw [listMean, List.sum_replicate, List.length_replicate, nsmul_eq_mul, mul_comm,
    mul_div_assoc, div_self (Nat.cast_ne_zero.2 h), mul_one]

theorem listVar_replicate (n : ℕ) (a : ℚ) : listVar (List.replicate n a) = 0 := by
  cases n with
  | zero => simp [listVar]
  | succ m =>
    rw [listVar, listMean_replicate (m+1) a (Nat.succ_ne_zero m), List.map_replicate]
    simp

theorem pyMax_replicate (n : ℕ) (a : ℚ) : pyMax (List.replicate (n+1) a) = a := by
  rw [List.replicate_succ, pyMax]
  have h : ∀ m : ℕ, (List.replicate m a).foldl max a = a := by
    intro m
    induction m with
    | zero => rfl
    | succ k ihk => rw [List.replicate_succ, List.foldl_cons, max_self]; exact ihk
  exact h n

theorem idxOfMax_replicate (n : ℕ) (a : ℚ) : idxOfMax (List.replicate (n+1) a) = 0 := by
  rw [idxOfMax, pyMax_replicate, List.replicate_succ, listIdx, if_pos rfl]

/-- C7 (amended).  On an all-identical sample group the standard deviation
of the rest is zero; the float separation quotient is `nan` (or `inf`), the
rejection comparison `num_std < TOLERANCE` is false either way, and no
division fault is raised.  But the engine does not uniformly return the
sentinel: a graded question falls through to the darkness floor (selecting
index 0 when the common value is at least `FILLED_THRESHOLD`), the
form-number decision — which has no floor — always selects variant 1, and a
unique-id character falls through to the handwriting-probe test. -/
theorem degenerate_variance_spec :
    (∀ a : ℚ, grade_5choice (List.replicate 5 a) =
        if a < FILLED_THRESHOLD then none else some 0)
    ∧ (∀ a : ℚ, get_form_num (List.replicate 4 a) = some 1)
    ∧ (∀ a probe : ℚ, uniqueid_char (List.replicate 36 a) probe =
        if probe < UNIQUEID_WRITING_THRESHOLD ∧ a < FILLED_THRESHOLD_UNIQUEID
        then ' ' else 'A') := by
  refine ⟨?_, ?_, ?_⟩
  · intro a
    have hrest : restOf (List.replicate 5 a) = List.replicate 4 a := restOf_replicate 4 a
    have hmax : maxSample (List.replicate 5 a) = a := maxSample_replicate 4 a
    have hidx : idxOfMax (List.replicate 5 a) = 0 := idxOfMax_replicate 4 a
    rw [grade_5choice, hrest, hmax, hidx, listVar_replicate]
    simp
  · intro a
    have hrest : restOf (List.replicate 4 a) = List.replicate 3 a := restOf_replicate 3 a
    have hmax : maxSample (List.replicate 4 a) = a := maxSample_replicate 3 a
    have hsec : secondSample (List.replicate 4 a) = a := secondSample_replicate 2 a
    have hidx : idxOfMax (List.replicate 4 a) = 0 := idxOfMax_replicate 3 a
    rw [get_form_num, hrest, hmax, hsec, hidx, listVar_replicate]
    simp
  · intro a probe
    have hrest : restOf (List.replicate 36 a) = List.replicate 35 a := restOf_replicate 35 a
    have hmax : maxSample (List.replicate 36 a) = a := maxSample_replicate 35 a
    have hidx : idxOfMax (List.replicate 36 a) = 0 := idxOfMax_replicate 35 a
    rw [uniqueid_char, hrest, hmax, hidx, listVar_replicate]
    simp only [ne_eq, not_true_eq_false, false_and, false_or, Nat.not_lt_zero,
      not_true_eq_false, if_false]

/-- C7 counterexample: the all-identical dark group `[0.9, 0.9, 0.9, 0.9,
0.9]` has zero variance among the non-maximum samples, yet the engine
selects index 0 instead of returning the no-selection sentinel. -/
theorem degenerate_variance_counterexample :
    grade_5choice (List.replicate 5 (9/10)) = some 0 ∧
    listVar (restOf (List.replicate 5 (9/10))) = 0 := by
  norm_num [grade_5choice, restOf, sortedSamples, List.insertionSort, List.orderedInsert,
    listVar, listMean, maxSample, lastD, idxOfMax, pyMax, listIdx, List.replicate,
    TOLERANCE, FILLED_THRESHOLD]

/-! ## Darkness model

`darkness` (bubble_grader.py lines 81-108) reads only the red channel of an
RGB sample (to ignore the red form print), computes `raw = 1 - red/255` and
applies the logistic curve `1 / (1 + exp(-(raw - CENTER) * ENHANCEMENT))`. -/

/-- Center point of the sigmoidal enhancement (`CENTER`). -/
noncomputable def CENTER : ℝ := 25/100

/-- Severity of the sigmoidal enhancement (`ENHANCEMENT`). -/
noncomputable def ENHANCEMENT : ℝ := 20

/-- Darkness of a pixel, as a function of its red channel value `red`
(0 to 255).  `MARK_COLOR = rgb(0,120,255)` has red channel 0. -/
noncomputable def darkness (red : ℕ) : ℝ :=
  1 / (1 + Real.exp (-((1 - (red : ℝ) / 255) - CENTER) * ENHANCEMENT))

theorem darkness_pos (red : ℕ) : 0 < darkness red := by
  rw [darkness]
  positivity

theorem darkness_lt_one (red : ℕ) : darkness red < 1 := by
  rw [darkness]
  rw [div_lt_one (by positivity)]
  have := Real.exp_pos (-((1 - (red : ℝ) / 255) - CENTER) * ENHANCEMENT)
  linarith

theorem darkness_strictAnti {r1 r2 : ℕ} (h : r1 < r2) : darkness r2 < darkness r1 := by
  have hc : (r1 : ℝ) < (r2 : ℝ) := by exact_mod_cast h
  have hE : -((1 - (r1 : ℝ) / 255) - CENTER) * ENHANCEMENT <
      -((1 - (r2 : ℝ) / 255) - CENTER) * ENHANCEMENT := by
    rw [CENTER, ENHANCEMENT]
    nlinarith
  have he := Real.exp_lt_exp.2 hE
  rw [darkness, darkness]
  exact one_div_lt_one_div_of_lt (by positivity) (by linarith)

theorem darkness_antitone {r1 r2 : ℕ} (h : r1 ≤ r2) : darkness r2 ≤ darkness r1 := by
  rcases Nat.lt_or_ge r1 r2 with hlt | hge
  · exact le_of_lt (darkness_strictAnti hlt)
  · have : r1 = r2 := le_antisymm h hge
    rw [this]

theorem exp_five_bounds : (1484/10) < Real.exp 5 ∧ Real.exp 5 < 1485/10 := by
  have h5 : Real.exp 5 = (Real.exp 1)^5 := by
    have := Real.exp_nat_mul 1 5
    rw [mul_one] at this
    exact_mod_cast this
  have hlo := Real.exp_one_gt_d9
  have hhi := Real.exp_one_lt_d9
  constructor
  · rw [h5]
    have : ((2.7182818283 : ℝ))^5 < (Real.exp 1)^5 :=
      pow_lt_pow_left₀ hlo (by norm_num) (by norm_num)
    nlinarith
  · rw [h5]
    have : (Real.exp 1)^5 < ((2.7182818286 : ℝ))^5 :=
      pow_lt_pow_left₀ hhi (Real.exp_pos 1).le (by norm_num)
    nlinarith

theorem darkness_white_bounds : 6/1000 < darkness 255 ∧ darkness 255 < 7/1000 := by
  have harg : -((1 - ((255 : ℕ) : ℝ) / 255) - CENTER) * ENHANCEMENT = 5 := by
    rw [CENTER, ENHANCEMENT]; norm_num
  have hb := exp_five_bounds
  rw [darkness, harg]
  constructor
  · rw [lt_div_iff₀ (by positivity)]
    nlinarith [hb.2]
  · rw [div_lt_iff₀ (by positivity)]
    nlinarith [hb.1]

theorem exp_fifteen_big : (3000000 : ℝ) < Real.exp 15 := by
  have h15 : Real.exp 15 = (Real.exp 1)^15 := by
    have := Real.exp_nat_mul 1 15
    rw [mul_one] at this
    exact_mod_cast this
  have hlo := Real.exp_one_gt_d9
  rw [h15]
  have : ((2.7182818283 : ℝ))^15 < (Real.exp 1)^15 :=
    pow_lt_pow_left₀ hlo (by norm_num) (by norm_num)
  nlinarith

theorem darkness_black_bounds : 1 - 1/100000 < darkness 0 ∧ darkness 0 < 1 := by
  have harg : -((1 - ((0 : ℕ) : ℝ) / 255) - CENTER) * ENHANCEMENT = -15 := by
    rw [CENTER, ENHANCEMENT]; norm_num
  have hpos := Real.exp_pos (-15 : ℝ)
  have hsmall : Real.exp (-15 : ℝ) < 1/3000000 := by
    rw [Real.exp_neg]
    rw [inv_lt_comm₀ (Real.exp_pos 15) (by norm_num)]
    have := exp_fifteen_big
    linarith
  constructor
  · rw [darkness, harg, lt_div_iff₀ (by positivity)]
    nlinarith
  · exact darkness_lt_one 0

/-- C5 (amended).  `darkness` follows the stated logistic formula on the
red channel, is strictly decreasing in the channel value, stays strictly
between 0 and 1, and on a pure white sample (red = 255) is within 0.001 of
the stated 0.007.  Amendment forced by the code: on a pure black sample
(red = 0) the value is `1 / (1 + exp(-15))`, greater than `1 - 10⁻⁵` —
near 1, but not near the claimed 0.993 (which would correspond to
`1 / (1 + exp(-5))`). -/
theorem darkness_spec :
    (∀ r1 r2 : ℕ, r1 < r2 → darkness r2 < darkness r1)
    ∧ (∀ r : ℕ, 0 < darkness r ∧ darkness r < 1)
    ∧ (6/1000 < darkness 255 ∧ darkness 255 < 7/1000)
    ∧ (1 - 1/100000 < darkness 0 ∧ darkness 0 < 1) :=
  ⟨fun _ _ h => darkness_strictAnti h,
   fun r => ⟨darkness_pos r, darkness_lt_one r⟩,
   darkness_white_bounds,
   darkness_black_bounds⟩

/-- C5 witness: the strict-monotonicity part of `darkness_spec` applied at
the concrete channel values 0 and 255. -/
theorem darkness_spec_witness : darkness 255 < darkness 0 :=
  darkness_spec.1 0 255 (by norm_num)

/-- C5 counterexample: the darkness of a pure black sample exceeds 0.998,
so it is not "approximately 0.993" (it differs from 0.993 by more than
0.005, whereas the white value is within 0.001 of its stated 0.007). -/
theorem darkness_black_counterexample : (993 : ℝ)/1000 + 5/1000 < darkness 0 := by
  have := darkness_black_bounds.1
  linarith

/-! ## Grid construction (`calibrate`, bubble_grader.py lines 269-313)

`calibrate` locates the calibration bars (`find_bars`,
`trace_y_calib_bars`, `trace_x_calib_bars`) and then builds the grid from
the traced bar midpoints alone.  The embedding takes the two traced
midpoint lists as input and models the grid-building tail of the function:
`bubble_dist = (calib_bars_y[-1] - calib_bars_y[0]) / (len(calib_bars_y) - 1)`
and `x_grid = [round(calib_bars_x[1] + i * bubble_dist) for i in range(44)]`,
with the traced y-midpoints returned unchanged as the y grid. -/

theorem lastD_getLast? {α : Type} :
    ∀ (l : List α) (d : α), l ≠ [] → l.getLast? = some (lastD l d)
  | [], _, h => absurd rfl h
  | [a], d, _ => by simp [lastD]
  | a :: b :: t, d, _ => by
    rw [List.getLast?_cons_cons, lastD]
    exact lastD_getLast? (b :: t) d (by simp)

theorem firstD_head? {α : Type} (l : List α) (d : α) (h : l ≠ []) :
    l.head? = some (firstD l d) := by
  cases l with
  | nil => exact absurd rfl h
  | cons a t => rfl

/-- Python 3's `round`: round half to even (used on the float
`calib_bars_x[1] + i * bubble_dist`). -/
def pyRound (q : ℚ) : ℤ :=
  if Int.fract q = 1/2 then (if 2 ∣ ⌊q⌋ then ⌊q⌋ else ⌊q⌋ + 1) else round q

/-- Distance between grid rows, calibrated per scan:
`(calib_bars_y[-1] - calib_bars_y[0]) / (len(calib_bars_y) - 1)`. -/
def bubbleDist (ys : List ℤ) : ℚ :=
  (((lastD ys 0 : ℤ) : ℚ) - ((firstD ys 0 : ℤ) : ℚ)) / ((ys.length : ℚ) - 1)

/-- The 44-column grid extrapolated from the second traced x-axis bar:
`[round(calib_bars_x[1] + i * bubble_dist) for i in range(44)]`. -/
def xGrid (xs ys : List ℤ) : List ℤ :=
  (List.range 44).map fun (i : ℕ) =>
    pyRound (((xs.getD 1 0 : ℤ) : ℚ) + ((i : ℕ) : ℚ) * bubbleDist ys)

/-- Grid-building tail of `calibrate` given the traced bar midpoints.
`none` models an uncaught exception: with fewer than two traced y bars the
division `(len - 1)` or the index `calib_bars_y[0]` faults
(`ZeroDivisionError` / `IndexError`), and with fewer than two traced x bars
the index `calib_bars_x[1]` faults.  Otherwise the returned flag records
whether the bar-count mismatch message was printed (a non-fatal warning),
and the grid is built from the traced bars regardless of the flag. -/
def calibrate (ys xs : List ℤ) : Option (Bool × List ℤ × List ℤ) :=
  if ys.length < 2 ∨ xs.length < 2 then none
  else some (decide (ys.length ≠ NUM_CALIB_BARS), xGrid xs ys, ys)

theorem abs_pyRound_sub_le (q : ℚ) : |((pyRound q : ℤ) : ℚ) - q| ≤ 1/2 := by
  rw [pyRound]
  split_ifs with htie heven
  · rw [Int.fract] at htie
    have hq : ((⌊q⌋ : ℚ)) - q = -(1/2) := by linarith
    rw [hq, abs_neg, abs_of_nonneg (by norm_num)]
  · rw [Int.fract] at htie
    push_cast
    have hq : ((⌊q⌋ : ℚ)) + 1 - q = 1/2 := by linarith
    rw [hq, abs_of_nonneg (by norm_num)]
  · rw [abs_sub_comm]
    exact abs_sub_round q

theorem abs_sub_le_of_halves {a b : ℚ} (ha : |a| ≤ 1/2) (hb : |b| ≤ 1/2) : |a - b| ≤ 1 := by
  have h := abs_add a (-b)
  rw [abs_neg] at h
  rw [sub_eq_add_neg]
  linarith

theorem xGrid_length (xs ys : List ℤ) : (xGrid xs ys).length = 44 := by
  rw [xGrid, List.length_map, List.length_range]

theorem xGrid_getD (xs ys : List ℤ) {i : ℕ} (hi : i < 44) :
    (xGrid xs ys).getD i 0 =
      pyRound (((xs.getD 1 0 : ℤ) : ℚ) + (i : ℚ) * bubbleDist ys) := by
  have hlen : i < (xGrid xs ys).length := by
    rw [xGrid_length]
    exact hi
  rw [List.getD_eq_getElem _ _ hlen]
  simp only [xGrid, List.getElem_map, List.getElem_range]

/-- C4.  The grid row spacing is calibrated per scan as
`(last_bar_midpoint - first_bar_midpoint) / (bar_count - 1)`; the column
grid consists of exactly 44 positions extrapolated from the second traced
x-axis bar (`calib_bars_x[1]`) using that spacing, so consecutive columns
are equally spaced up to the rounding of each position (within 1 pixel of
the spacing).  The grid is a function of the traced bars alone — no fixed
pixel constant appears. -/
theorem calibrate_grid_spec (ys xs : List ℤ) (hy2 : 2 ≤ ys.length) (_hx2 : 2 ≤ xs.length) :
    (∀ ylast yfirst : ℤ, ys.getLast? = some ylast → ys.head? = some yfirst →
      bubbleDist ys = ((ylast : ℚ) - (yfirst : ℚ)) / ((ys.length : ℚ) - 1))
    ∧ (xGrid xs ys).length = 44
    ∧ (∀ i : ℕ, i < 44 →
        (xGrid xs ys).getD i 0 =
          pyRound (((xs.getD 1 0 : ℤ) : ℚ) + (i : ℚ) * bubbleDist ys))
    ∧ (∀ i : ℕ, i + 1 < 44 →
        |(((xGrid xs ys).getD (i+1) 0 : ℤ) : ℚ) - (((xGrid xs ys).getD i 0 : ℤ) : ℚ)
          - bubbleDist ys| ≤ 1) := by
  have hne : ys ≠ [] := by
    intro h
    rw [h] at hy2
    simp at hy2
  refine ⟨?_, xGrid_length xs ys, fun i hi => xGrid_getD xs ys hi, ?_⟩
  · intro ylast yfirst hl hf
    rw [lastD_getLast? ys 0 hne] at hl
    rw [firstD_head? ys 0 hne] at hf
    rw [bubbleDist, Option.some.inj hl, Option.some.inj hf]
  · intro i hi
    have hgi := xGrid_getD xs ys (show i < 44 by omega)
    have hgi' := xGrid_getD xs ys hi
    rw [hgi, hgi']
    have hdiff :
        ((pyRound (((xs.getD 1 0 : ℤ) : ℚ) + ((i+1 : ℕ) : ℚ) * bubbleDist ys) : ℤ) : ℚ)
          - ((pyRound (((xs.getD 1 0 : ℤ) : ℚ) + (i : ℚ) * bubbleDist ys) : ℤ) : ℚ)
          - bubbleDist ys =
        (((pyRound (((xs.getD 1 0 : ℤ) : ℚ) + ((i+1 : ℕ) : ℚ) * bubbleDist ys) : ℤ) : ℚ)
            - (((xs.getD 1 0 : ℤ) : ℚ) + ((i+1 : ℕ) : ℚ) * bubbleDist ys))
          - (((pyRound (((xs.getD 1 0 : ℤ) : ℚ) + (i : ℚ) * bubbleDist ys) : ℤ) : ℚ)
            - (((xs.getD 1 0 : ℤ) : ℚ) + (i : ℚ) * bubbleDist ys)) := by
      push_cast
      ring
    rw [hdiff]
    exact abs_sub_le_of_halves
      (abs_pyRound_sub_le (((xs.getD 1 0 : ℤ) : ℚ) + ((i+1 : ℕ) : ℚ) * bubbleDist ys))
      (abs_pyRound_sub_le (((xs.getD 1 0 : ℤ) : ℚ) + (i : ℚ) * bubbleDist ys))

/-- C4 witness: the grid-construction theorem applied to concrete traced
bars `[0, 10, 20]` and `[3, 7]`, with both length hypotheses discharged. -/
theorem calibrate_grid_spec_witness : (xGrid [3, 7] [0, 10, 20]).length = 44 :=
  (calibrate_grid_spec [0, 10, 20] [3, 7] (by norm_num) (by norm_num)).2.1

/-- C8 (amended).  When at least two bars were traced on each axis, a bar
count differing from `NUM_CALIB_BARS` is reported only through the warning
flag: calibration still returns the grid built from the traced bars exactly
as in the matching case.  Amendment forced by the code: with zero or one
traced y bars (also a mismatch) the function faults (`IndexError` on
`calib_bars_y[0]`, or `ZeroDivisionError` in the spacing division) instead
of proceeding. -/
theorem calibrate_mismatch_spec (ys xs : List ℤ) (hy2 : 2 ≤ ys.length)
    (hx2 : 2 ≤ xs.length) (hmis : ys.length ≠ NUM_CALIB_BARS) :
    calibrate ys xs = some (true, xGrid xs ys, ys) := by
  rw [calibrate, if_neg (by omega)]
  simp [hmis]

/-- C8 witness: `calibrate` applied to three traced y bars (a mismatch with
the expected 63) and two x bars, with every hypothesis discharged. -/
theorem calibrate_mismatch_spec_witness :
    calibrate [0, 7, 14] [2, 9] = some (true, xGrid [2, 9] [0, 7, 14], [0, 7, 14]) :=
  calibrate_mismatch_spec [0, 7, 14] [2, 9] (by norm_num) (by norm_num)
    (by norm_num [NUM_CALIB_BARS])

/-- C8 counterexample: a single traced bar is a count mismatch on which
grid construction does not proceed — the code faults (modelled by `none`)
instead of returning a grid. -/
theorem calibrate_short_counterexample :
    [(5:ℤ)].length ≠ NUM_CALIB_BARS ∧ calibrate [(5:ℤ)] [1, 2] = none := by
  constructor
  · norm_num [NUM_CALIB_BARS]
  · rw [calibrate, if_pos]
    norm_num

/-! ## Region sampler and annotation pass

An image is modelled by its red channel, the only channel `darkness` reads:
a function `ℤ → ℤ → ℕ` from pixel coordinates to the red value, together
with the width and height that the source gets from `img.size`.
`read_bubble` (lines 111-133) averages `darkness` over the inclusive
window `[x-hx, x+hx] × [y-hy, y+hy]`; `draw_bubble` (lines 356-379) fills
four rectangles with `MARK_COLOR = rgb(0,120,255)`, whose red channel
is 0. -/

/-- Half width of the sampling window: `int(BUBBLE_RADIUS_X * img.size[0])`
with `BUBBLE_RADIUS_X = 0.0069`. -/
def halfSideX (W : ℕ) : ℕ := 69 * W / 10000

/-- Half height of the sampling window: `int(BUBBLE_RADIUS_Y * img.size[1])`
with `BUBBLE_RADIUS_Y = 0.0054`. -/
def halfSideY (H : ℕ) : ℕ := 54 * H / 10000

/-- The inclusive pixel window read by `read_bubble` around `(x, y)`. -/
def readWindow (W H : ℕ) (x y : ℤ) : Finset (ℤ × ℤ) :=
  Finset.Icc (x - halfSideX W) (x + halfSideX W) ×ˢ
    Finset.Icc (y - halfSideY H) (y + halfSideY H)

/-- Mean darkness over the sampling window (`read_bubble`). -/
noncomputable def readBubble (img : ℤ → ℤ → ℕ) (W H : ℕ) (x y : ℤ) : ℝ :=
  (∑ p ∈ readWindow W H x y, darkness (img p.1 p.2)) / (readWindow W H x y).card

/-- Integer points of an axis-aligned rectangle given two corners
(PIL `ImageDraw.rectangle` fills the inclusive box). -/
def rectPts (x0 y0 x1 y1 : ℤ) : Finset (ℤ × ℤ) :=
  Finset.Icc (min x0 x1) (max x0 x1) ×ˢ Finset.Icc (min y0 y1) (max y0 y1)

/-- The pixels written by `draw_bubble` around grid point `(gx, gy)`: the
four `MARK_COLOR` rectangles of the source, lines 364-379. -/
def drawSet (W H : ℕ) (gx gy : ℤ) : Finset (ℤ × ℤ) :=
  rectPts (gx - halfSideX W) (gy + halfSideY H) (gx + halfSideX W) (gy + halfSideY H + 2) ∪
  rectPts (gx - halfSideX W) (gy - halfSideY H) (gx + halfSideX W) (gy - halfSideY H - 2) ∪
  rectPts (gx + halfSideX W) (gy - halfSideY H) (gx + halfSideX W + 2) (gy + halfSideY H) ∪
  rectPts (gx - halfSideX W) (gy + halfSideY H) (gx - halfSideX W - 2) (gy - halfSideY H)

/-- The image after `draw_bubble`: the drawn pixels take the red channel of
`MARK_COLOR = rgb(0,120,255)`, i.e. 0; all others are unchanged. -/
def applyDraw (img : ℤ → ℤ → ℕ) (W H : ℕ) (gx gy : ℤ) : ℤ → ℤ → ℕ :=
  fun a b => if (a, b) ∈ drawSet W H gx gy then 0 else img a b

/-- An all-white image (red channel 255 everywhere). -/
def whiteImg : ℤ → ℤ → ℕ := fun _ _ => 255

theorem center_mem_readWindow (W H : ℕ) (x y : ℤ) : (x, y) ∈ readWindow W H x y := by
  rw [readWindow, Finset.mem_product]
  constructor <;> rw [Finset.mem_Icc] <;> constructor <;> simp

theorem readBubble_card_pos (W H : ℕ) (x y : ℤ) : 0 < (readWindow W H x y).card :=
  Finset.card_pos.2 ⟨(x, y), center_mem_readWindow W H x y⟩

/-- Samples are unchanged by any write that avoids the window. -/
theorem readBubble_congr (img img' : ℤ → ℤ → ℕ) (W H : ℕ) (x y : ℤ)
    (h : ∀ p ∈ readWindow W H x y, img' p.1 p.2 = img p.1 p.2) :
    readBubble img' W H x y = readBubble img W H x y := by
  rw [readBubble, readBubble]
  congr 1
  exact Finset.sum_congr rfl fun p hp => by rw [h p hp]

/-- Darkening at least one window pixel strictly increases the sample. -/
theorem readBubble_lt (img img' : ℤ → ℤ → ℕ) (W H : ℕ) (x y : ℤ)
    (hle : ∀ p ∈ readWindow W H x y, img' p.1 p.2 ≤ img p.1 p.2)
    (p0 : ℤ × ℤ) (hp0 : p0 ∈ readWindow W H x y)
    (hlt : img' p0.1 p0.2 < img p0.1 p0.2) :
    readBubble img W H x y < readBubble img' W H x y := by
  rw [readBubble, readBubble, div_lt_div_iff_of_pos_right]
  · exact Finset.sum_lt_sum (fun p hp => darkness_antitone (hle p hp))
      ⟨p0, hp0, darkness_strictAnti hlt⟩
  · exact_mod_cast readBubble_card_pos W H x y

/-- C2 (amended).  A decision is a pure function of the darkness samples its
group reads from the image state at the moment it runs, and an annotation
drawn by an earlier decision leaves a later sample unchanged whenever the
drawn pixels avoid that sample's window — but not in general: the
`draw_bubble` rectangles start on the boundary rows and columns of the
sampling window itself, and with `num_questions ≥ 81` question bubbles
reuse identifier grid cells (question column `2 + 9*4 = 38` overlaps
`UNIQUEID_X = 36..43`), so a later read can see an earlier annotation (see
the counterexample). -/
theorem draw_disjoint_preserves_sample (img : ℤ → ℤ → ℕ) (W H : ℕ) (gx gy x y : ℤ)
    (hdisj : drawSet W H gx gy ∩ readWindow W H x y = ∅) :
    readBubble (applyDraw img W H gx gy) W H x y = readBubble img W H x y := by
  apply readBubble_congr
  intro p hp
  rw [applyDraw, if_neg]
  intro hmem
  have hinter : (p.1, p.2) ∈ drawSet W H gx gy ∩ readWindow W H x y :=
    Finset.mem_inter.2 ⟨hmem, by simpa using hp⟩
  rw [hdisj] at hinter
  exact absurd hinter (Finset.not_mem_empty _)

/-- C2 witness: an annotation at grid point `(760, 460)` of a 1000x1000
image does not change the sample read at the far-away `(100, 100)`; the
disjointness hypothesis is discharged by computation. -/
theorem draw_disjoint_preserves_sample_witness :
    readBubble (applyDraw whiteImg 1000 1000 760 460) 1000 1000 100 100 =
      readBubble whiteImg 1000 1000 100 100 :=
  draw_disjoint_preserves_sample whiteImg 1000 1000 760 460 100 100 (by decide)

/-- C2 counterexample: on a 1000x1000 white image the annotation drawn at
grid point `(760, 460)` (e.g. the winning identifier bubble at grid indices
`x_grid[38], y_grid[23]`) changes the sample that a later decision reads
from the very same cell (e.g. question 81's first bubble, which sits at the
same grid indices when `num_questions ≥ 81`): the top annotation rectangle
occupies rows `y + hy .. y + hy + 2`, and row `y + hy = 465` lies inside
the sampling window `[754, 766] × [455, 465]`. -/
theorem draw_overlap_changes_sample :
    readBubble (applyDraw whiteImg 1000 1000 760 460) 1000 1000 760 460 ≠
      readBubble whiteImg 1000 1000 760 460 := by
  apply ne_of_gt
  apply readBubble_lt whiteImg (applyDraw whiteImg 1000 1000 760 460) 1000 1000 760 460
    ?_ (760, 465) (by decide) ?_
  · intro p hp
    rw [applyDraw]
    split
    · exact Nat.zero_le _
    · exact le_rfl
  · rw [applyDraw, if_pos (by decide)]
    norm_num [whiteImg]

/-! ## Identifier emission (`read_scan`, bubble_grader.py lines 465-467) -/

/-- The eight decoded identifier characters of `get_uniqueid`: one
`uniqueid_char` decision per character position, on the 36 bubble samples
and the handwriting probe of that position. -/
def get_uniqueid_chars (inputs : List (List ℚ × ℚ)) : List Char :=
  inputs.map fun p => uniqueid_char p.1 p.2

/-- The identifier emitted by `read_scan`: `uniqueid =
"".join(get_uniqueid(...))`, replaced by `"blank{randint(0,99)}"` only when
its length is zero.  The random draw is modelled by the parameter `r`. -/
def emit_identifier (inputs : List (List ℚ × ℚ)) (r : ℕ) : String :=
  if (String.mk (get_uniqueid_chars inputs)).length = 0 then
    "blank" ++ toString (r % 100)
  else
    String.mk (get_uniqueid_chars inputs)

/-- Character inputs on which all eight identifier characters decode to
blank: every bubble and every handwriting probe reads darkness 0. -/
def blank_id_inputs : List (List ℚ × ℚ) := List.replicate 8 (List.replicate 36 0, 0)

theorem uniqueid_char_blank : uniqueid_char (List.replicate 36 (0:ℚ)) 0 = ' ' := by
  have hrest : restOf (List.replicate 36 (0:ℚ)) = List.replicate 35 0 := restOf_replicate 35 0
  have hmax : maxSample (List.replicate 36 (0:ℚ)) = 0 := maxSample_replicate 35 0
  rw [uniqueid_char, hrest, hmax, listVar_replicate]
  norm_num [UNIQUEID_WRITING_THRESHOLD, FILLED_THRESHOLD_UNIQUEID]

/-- C9 (code bug).  When all eight identifier characters decode to blank,
`get_uniqueid` returns eight `" "` characters, so the joined identifier has
length 8 — never 0 — and the `"blank{}"` randomized-placeholder branch of
`read_scan` is dead code: the emitted identifier is the 8-space string, not
a non-empty synthesized key (it even strips to the empty string in the
output filename).  The third conjunct records why the guard can never fire:
the join always has exactly the length of the character-input list. -/
theorem blank_identifier_not_replaced :
    (∀ r : ℕ, emit_identifier blank_id_inputs r = String.mk (List.replicate 8 ' '))
    ∧ String.mk (List.replicate 8 ' ') ≠ ""
    ∧ (∀ inputs : List (List ℚ × ℚ), (get_uniqueid_chars inputs).length = inputs.length) := by
  refine ⟨?_, by decide, fun inputs => by rw [get_uniqueid_chars, List.length_map]⟩
  intro r
  have hchars : get_uniqueid_chars blank_id_inputs = List.replicate 8 ' ' := by
    rw [get_uniqueid_chars, blank_id_inputs, List.map_replicate, uniqueid_char_blank]
  rw [emit_identifier, hchars, if_neg (by decide)]
